import Mathlib

/-!
Verification of the mitmcdn caching proxy (Go) against its natural-language
specification.  The Go sources are shallowly embedded: pure helpers become
Lean functions, effectful steps become functions of their observable inputs
(response status, database snapshots, byte streams), machine integers become
Nat/Int with explicit reduction modulo 2^32 where the code relies on 32-bit
arithmetic (the SHA-256 compression function).
-/

namespace Mitmcdn

/-! ## Go string primitives used by the sources -/

/-- Model of Go `strings.Contains(s, sub)`: `sub` occurs as a contiguous
substring of `s` (always true for the empty `sub`). -/
def goContains (s sub : String) : Bool :=
  s.data.tails.any (fun t => sub.data.isPrefixOf t)

/-- Model of Go `strings.Split(s, sep)` for a single-character separator,
working on the character list: splits at every occurrence of `sep`,
yielding at least one (possibly empty) group. -/
def splitOnChar (sep : Char) : List Char → List (List Char)
  | [] => [[]]
  | c :: cs =>
    match splitOnChar sep cs with
    | [] => [[]]
    | g :: gs => if c = sep then [] :: g :: gs else (c :: g) :: gs

/-! ## Decimal rendering and parsing (model of `fmt.Sprintf("%d", ·)` and
the `%d` verb of `fmt.Sscanf`) -/

/-- Decimal digit character for a value below ten. -/
def digitChar (d : Nat) : Char := Char.ofNat (48 + d)

/-- Decimal character representation of a natural number (model of Go
`fmt.Sprintf` with verb `%d` on a non-negative value). -/
def natChars (n : Nat) : List Char :=
  if h : n < 10 then [digitChar n]
  else natChars (n / 10) ++ [digitChar (n % 10)]
  decreasing_by
    exact Nat.div_lt_self (by omega) (by omega)

/-- String form of `natChars`. -/
def natString (n : Nat) : String := String.mk (natChars n)

/-- Numeric value of a decimal digit character. -/
def charVal (c : Char) : Nat := c.toNat - 48

/-- Accumulating decimal parse of an entire character list. -/
def parseDecAcc (acc : Nat) (l : List Char) : Nat :=
  l.foldl (fun a c => a * 10 + charVal c) acc

/-! ## UTF-8 encoding (model of Go's conversion `[]byte(string)`) -/

/-- Standard UTF-8 encoding of a single Unicode scalar value. -/
def utf8EncodeChar (c : Char) : List Nat :=
  let n := c.toNat
  if n < 0x80 then [n]
  else if n < 0x800 then
    [0xC0 ||| (n >>> 6), 0x80 ||| (n &&& 0x3F)]
  else if n < 0x10000 then
    [0xE0 ||| (n >>> 12), 0x80 ||| ((n >>> 6) &&& 0x3F), 0x80 ||| (n &&& 0x3F)]
  else
    [0xF0 ||| (n >>> 18), 0x80 ||| ((n >>> 12) &&& 0x3F),
     0x80 ||| ((n >>> 6) &&& 0x3F), 0x80 ||| (n &&& 0x3F)]

/-- UTF-8 bytes of a string, as natural numbers below 256. -/
def utf8Bytes (s : String) : List Nat :=
  (s.data.map utf8EncodeChar).flatten

/-! ## SHA-256 (model of Go `crypto/sha256.Sum256`), over byte lists with
32-bit words as naturals reduced modulo 2^32 -/

/-- Right rotation of a 32-bit word. -/
def rotr32 (n x : Nat) : Nat := ((x >>> n) ||| (x <<< (32 - n))) % 2 ^ 32

/-- Addition modulo 2^32. -/
def add32 (a b : Nat) : Nat := (a + b) % 2 ^ 32

/-- Bitwise complement within 32 bits. -/
def not32 (x : Nat) : Nat := x ^^^ 0xffffffff

def ch32 (x y z : Nat) : Nat := (x &&& y) ^^^ (not32 x &&& z)

def maj32 (x y z : Nat) : Nat := (x &&& y) ^^^ (x &&& z) ^^^ (y &&& z)

def bigSigma0 (x : Nat) : Nat := rotr32 2 x ^^^ rotr32 13 x ^^^ rotr32 22 x

def bigSigma1 (x : Nat) : Nat := rotr32 6 x ^^^ rotr32 11 x ^^^ rotr32 25 x

def smallSigma0 (x : Nat) : Nat := rotr32 7 x ^^^ rotr32 18 x ^^^ (x >>> 3)

def smallSigma1 (x : Nat) : Nat := rotr32 17 x ^^^ rotr32 19 x ^^^ (x >>> 10)

/-- The 64 SHA-256 round constants (FIPS 180-4, in decimal). -/
def sha256K : List Nat :=
  [1116352408, 1899447441, 3049323471, 3921009573, 961987163, 1508970993,
   2453635748, 2870763221, 3624381080, 310598401, 607225278, 1426881987,
   1925078388, 2162078206, 2614888103, 3248222580, 3835390401, 4022224774,
   264347078, 604807628, 770255983, 1249150122, 1555081692, 1996064986,
   2554220882, 2821834349, 2952996808, 3210313671, 3336571891, 3584528711,
   113926993, 338241895, 666307205, 773529912, 1294757372, 1396182291,
   1695183700, 1986661051, 2177026350, 2456956037, 2730485921, 2820302411,
   3259730800, 3345764771, 3516065817, 3600352804, 4094571909, 275423344,
   430227734, 506948616, 659060556, 883997877, 958139571, 1322822218,
   1537002063, 1747873779, 1955562222, 2024104815, 2227730452, 2361852424,
   2428436474, 2756734187, 3204031479, 3329325298]

/-- Hash state: the eight 32-bit working variables. -/
structure Sha256State where
  a : Nat
  b : Nat
  c : Nat
  d : Nat
  e : Nat
  f : Nat
  g : Nat
  h : Nat

/-- The SHA-256 initial hash value (FIPS 180-4, in decimal). -/
def sha256Init : Sha256State :=
  ⟨1779033703, 3144134277, 1013904242, 2773480762,
   1359893119, 2600822924, 528734635, 1541459225⟩

/-- Big-endian 32-bit words assembled from a byte list (4 bytes per word). -/
def wordsOfBytes (bs : List Nat) : List Nat :=
  (List.range (bs.length / 4)).map fun i =>
    bs.getD (4 * i) 0 * 2 ^ 24 + bs.getD (4 * i + 1) 0 * 2 ^ 16 +
      bs.getD (4 * i + 2) 0 * 2 ^ 8 + bs.getD (4 * i + 3) 0

/-- Message-schedule expansion of the 16 block words to 64 words. -/
def sha256Schedule (ws : List Nat) : List Nat :=
  (List.range 48).foldl
    (fun acc _ =>
      acc ++ [add32 (add32 (smallSigma1 (acc.getD (acc.length - 2) 0)) (acc.getD (acc.length - 7) 0))
                (add32 (smallSigma0 (acc.getD (acc.length - 15) 0)) (acc.getD (acc.length - 16) 0))])
    ws

/-- One round of the SHA-256 compression loop. -/
def sha256Round (w : List Nat) (st : Sha256State) (i : Nat) : Sha256State :=
  let t1 := add32 (add32 (add32 st.h (bigSigma1 st.e)) (add32 (ch32 st.e st.f st.g) (sha256K.getD i 0)))
    (w.getD i 0)
  let t2 := add32 (bigSigma0 st.a) (maj32 st.a st.b st.c)
  ⟨add32 t1 t2, st.a, st.b, st.c, add32 st.d t1, st.e, st.f, st.g⟩

/-- SHA-256 compression of one 64-byte block into the chaining state. -/
def sha256Compress (st : Sha256State) (block : List Nat) : Sha256State :=
  let w := sha256Schedule (wordsOfBytes block)
  let r := (List.range 64).foldl (sha256Round w) st
  ⟨add32 st.a r.a, add32 st.b r.b, add32 st.c r.c, add32 st.d r.d,
   add32 st.e r.e, add32 st.f r.f, add32 st.g r.g, add32 st.h r.h⟩

/-- Big-endian bytes of the 64-bit message length in bits. -/
def lenBytes64 (bits : Nat) : List Nat :=
  [bits / 2 ^ 56 % 256, bits / 2 ^ 48 % 256, bits / 2 ^ 40 % 256, bits / 2 ^ 32 % 256,
   bits / 2 ^ 24 % 256, bits / 2 ^ 16 % 256, bits / 2 ^ 8 % 256, bits % 256]

/-- SHA-256 padding: a 0x80 byte, zeros to 56 mod 64, then the bit length. -/
def sha256Pad (msg : List Nat) : List Nat :=
  msg ++ 0x80 :: List.replicate ((64 - (msg.length + 9) % 64) % 64) 0 ++ lenBytes64 (msg.length * 8)

/-- Big-endian 4-byte representation of a 32-bit word. -/
def be4 (w : Nat) : List Nat :=
  [w / 2 ^ 24 % 256, w / 2 ^ 16 % 256, w / 2 ^ 8 % 256, w % 256]

/-- The SHA-256 digest (32 bytes) of a byte message. -/
def sha256Bytes (msg : List Nat) : List Nat :=
  let p := sha256Pad msg
  let fin := (List.range (p.length / 64)).foldl
    (fun st i => sha256Compress st ((p.drop (64 * i)).take 64)) sha256Init
  be4 fin.a ++ be4 fin.b ++ be4 fin.c ++ be4 fin.d ++ be4 fin.e ++ be4 fin.f ++ be4 fin.g ++ be4 fin.h

/-- Lower-case hexadecimal character for a value below sixteen. -/
def hexChar (n : Nat) : Char := if n < 10 then Char.ofNat (48 + n) else Char.ofNat (87 + n)

/-- Hexadecimal characters of a byte list, two characters per byte. -/
def bytesToHexChars : List Nat → List Char
  | [] => []
  | b :: bs => hexChar (b / 16) :: hexChar (b % 16) :: bytesToHexChars bs

/-- Model of Go `hex.EncodeToString(sha256.Sum256([]byte(s))[:])`. -/
def sha256Hex (s : String) : String :=
  String.mk (bytesToHexChars (sha256Bytes (utf8Bytes s)))

/-! ## Cache fingerprint layer (src/cache `Manager.ComputeFileHash`) -/

/-- Model of `parts := strings.Split(url, "/"); parts[len(parts)-1]`. -/
def goLastSegment (url : String) : String :=
  String.mk ((splitOnChar '/' url.data).getLastD [])

/-- Model of `if idx := strings.Index(f, "?"); idx != -1 {f = f[:idx]}`:
the part of the string before its first question mark. -/
def goStripQuery (s : String) : String :=
  String.mk ((splitOnChar '?' s.data).headD s.data)

/-- The byte string hashed by `ComputeFileHash`, per dedup strategy, exactly
following the `switch strategy` in the Go source. -/
def hashInput (url cookie strategy : String) : String :=
  if strategy = "filename_only" then
    let filename := goStripQuery (goLastSegment url)
    if cookie ≠ "" then filename ++ "|" ++ cookie else filename
  else if strategy = "full_url" then
    if cookie ≠ "" then url ++ "|" ++ cookie else url
  else url

/-- Model of `Manager.ComputeFileHash`: SHA-256 of the strategy-dependent
hash input, hex-encoded. -/
def ComputeFileHash (url cookie strategy : String) : String :=
  sha256Hex (hashInput url cookie strategy)

/-! ## Rule matcher (src/cache `MatchCDNRule`) -/

/-- Model of `MatchCDNRule`.  The call to Go's `regexp.MatchString` is an
external library call, abstracted as the oracle `regexMatch` returning
either an error or a boolean; the empty-pattern path never consults it. -/
def MatchCDNRule (regexMatch : String → String → Except String Bool)
    (url domain pat : String) : Bool :=
  if !goContains url domain then false
  else if pat ≠ "" then
    match regexMatch pat url with
    | Except.error _ => false
    | Except.ok matched => if !matched then false else true
  else true

/-- Modelled from the spec: the host component of a URL, i.e. the authority
after the `//` of the scheme separator and before the next slash, with any
userinfo and port stripped.  (Used only to state the claim about host-based
matching; the Go source has no such host extraction in its matcher.) -/
def urlHostSpec (url : String) : String :=
  let parts := splitOnChar '/' url.data
  let authority :=
    match parts with
    | _ :: [] :: host :: _ => host
    | first :: _ => first
    | [] => []
  let hostPort := (splitOnChar '@' authority).getLastD []
  String.mk ((splitOnChar ':' hostPort).headD [])

/-- Modelled from the spec: "A URL matches iff its host contains `domain` as
a substring AND (matchPattern is empty OR matches the URL as a regular
expression)." -/
def matchCDNRuleSpec (regexMatch : String → String → Except String Bool)
    (url domain pat : String) : Bool :=
  goContains (urlHostSpec url) domain &&
    (pat == "" || (match regexMatch pat url with
      | Except.ok matched => matched
      | Except.error _ => false))

/-! ## Cache manager get-or-create (src/cache `Manager.GetOrCreateFile`) -/

/-- The persisted file record (src/database `File`), with the fields the
cache layer reads and writes. -/
structure DBFile where
  fileHash : String
  originalURL : String
  requestCookie : String
  filename : String
  fileSize : Nat
  savedPath : String
  downloadStatus : String
  lastAccessedAt : Nat
deriving DecidableEq, Repr

/-- Store-level failure surfaced by `db.Create`: the uniqueness constraint
on `file_hash` rejected the insert. -/
inductive DBError where
  | uniqueViolation
deriving DecidableEq, Repr

/-- Model of `db.Where("file_hash = ?", h).First(&file)`. -/
def dbFirst (db : List DBFile) (h : String) : Option DBFile :=
  db.find? (fun f => f.fileHash == h)

/-- Model of `Manager.GetOrCreateFile`.  `db0` is the store snapshot seen by
the initial lookup; `db1` the snapshot seen by the insert (they differ
exactly when a concurrent writer committed in between).  The insert is
rejected when `db1` already holds a record with the same fileHash, matching
the store's uniqueness constraint; the Go code returns that error to its
caller. -/
def GetOrCreateFile (db0 db1 : List DBFile) (now : Nat)
    (cacheDir url cookie filename strategy : String) :
    Except DBError (DBFile × List DBFile) :=
  let fileHash := ComputeFileHash url cookie strategy
  match dbFirst db0 fileHash with
  | some f =>
    let f := { f with lastAccessedAt := now }
    Except.ok (f, db0.map (fun g => if g.fileHash == fileHash then f else g))
  | none =>
    let file : DBFile :=
      { fileHash := fileHash, originalURL := url, requestCookie := cookie,
        filename := filename, fileSize := 0, savedPath := cacheDir ++ "/" ++ fileHash,
        downloadStatus := "pending", lastAccessedAt := now }
    match dbFirst db1 fileHash with
    | some _ => Except.error DBError.uniqueViolation
    | none => Except.ok (file, db1 ++ [file])

/-! ## Connection peek layer (src/proxy `peekConn`) -/

/-- State of a `peekConn`: the `peeked` flag, the peek buffer, and the bytes
still available on the underlying connection. -/
structure PeekConn where
  peeked : Bool
  buffer : List Nat
  stream : List Nat
deriving DecidableEq, Repr

/-- Model of `peekConn.Read` with a destination slice of length `k`:
`copy` moves `min k |buffer|` bytes; on the buffered branch the code sets
`peeked = true` unconditionally and keeps the remaining buffer slice. -/
def peekConnRead (p : PeekConn) (k : Nat) : List Nat × PeekConn :=
  if p.peeked = false ∧ p.buffer ≠ [] then
    let n := min k p.buffer.length
    let out := p.buffer.take n
    let buf := if n < p.buffer.length then p.buffer.drop n else []
    (out, { p with buffer := buf, peeked := true })
  else
    (p.stream.take k, { p with stream := p.stream.drop k })

/-- The concatenated bytes delivered by a sequence of downstream reads with
the given slice sizes. -/
def peekConnReads (p : PeekConn) : List Nat → List Nat
  | [] => []
  | k :: ks =>
    let r := peekConnRead p k
    r.1 ++ peekConnReads r.2 ks

/-! ## Protocol demultiplexer (src/proxy `detectProtocol`, `handleConnection`) -/

inductive Protocol where
  | socks5
  | http
  | https
deriving DecidableEq, Repr

/-- ASCII byte values of a string (all characters below 128 at call sites). -/
def asciiBytes (s : String) : List Nat := s.data.map Char.toNat

/-- Model of `detectProtocol`: reads one byte (none available is a read
error with `n == 0`), then up to three more, and classifies; unknown
leading bytes fall through to the final `return "http", nil`. -/
def detectProtocol (data : List Nat) : Option Protocol :=
  match data with
  | [] => none
  | b :: rest =>
    if b = 0x05 then some Protocol.socks5
    else
      let buffer := b :: rest.take 3
      if 4 ≤ buffer.length ∧
          (buffer.take 4 = asciiBytes "GET " ∨ buffer.take 4 = asciiBytes "POST" ∨
           buffer.take 4 = asciiBytes "CONN" ∨ buffer.take 4 = asciiBytes "HEAD" ∨
           buffer.take 4 = asciiBytes "PUT ") then
        some Protocol.http
      else if b = 0x16 then some Protocol.https
      else some Protocol.http

inductive Dispatch where
  | socks5Handler
  | httpLoop
  | tlsHandler
  | closed
deriving DecidableEq, Repr

/-- Model of `UnifiedServer.handleConnection`: dispatch on the detected
protocol.  `hasSocks5` is whether a SOCKS5 proxy was instantiated, and
`certOk` whether `GenerateCertificate("localhost")` succeeded. -/
def handleConnection (hasSocks5 certOk : Bool) (data : List Nat) : Dispatch :=
  match detectProtocol data with
  | none => Dispatch.closed
  | some Protocol.socks5 => if hasSocks5 then Dispatch.socks5Handler else Dispatch.closed
  | some Protocol.https => if certOk then Dispatch.tlsHandler else Dispatch.closed
  | some Protocol.http => Dispatch.httpLoop

/-! ## Download worker HTTP attempt (src/download `Scheduler.downloadTask`,
`Scheduler.handleDownloadError`) -/

/-- Decimal rendering of a Go `int64` (model of `fmt.Sprintf` verb `%d`). -/
def intString (i : Int) : String :=
  if i < 0 then "-" ++ natString i.natAbs else natString i.toNat

/-- The upstream error text `fmt.Errorf("unexpected status code: %d", s)`. -/
def statusErrorString (status : Nat) : String :=
  "unexpected status code: " ++ natString status

/-- The log message `fmt.Sprintf("Download failed: %v", err)` written by
`handleDownloadError`. -/
def downloadFailedMessage (err : String) : String := "Download failed: " ++ err

/-- The headers set on the upstream GET: `Cookie` exactly when the task
cookie is non-empty, `Range: bytes=<startOffset>-` exactly when
`startOffset > 0`. -/
def downloadRequestHeaders (cookie : String) (startOffset : Int) : List (String × String) :=
  (if cookie ≠ "" then [("Cookie", cookie)] else []) ++
    (if 0 < startOffset then [("Range", "bytes=" ++ intString startOffset ++ "-")] else [])

inductive DownloadOutcome where
  | rejected (logMessage : String)
  | accepted (appendMode : Bool)
deriving DecidableEq, Repr

/-- Model of the HTTP branch of `Scheduler.downloadTask` up to the first
body write: the request headers, and either rejection (`handleDownloadError`
with the unexpected-status message, before any byte is written) for a status
outside {200, 206}, or acceptance with the file opened in append mode
(`O_CREATE|O_WRONLY|O_APPEND`). -/
def downloadAttempt (cookie : String) (startOffset : Int) (respStatus : Nat) :
    List (String × String) × DownloadOutcome :=
  (downloadRequestHeaders cookie startOffset,
    if respStatus ≠ 200 ∧ respStatus ≠ 206 then
      DownloadOutcome.rejected (downloadFailedMessage (statusErrorString respStatus))
    else DownloadOutcome.accepted true)

/-! ## Fan-out channel close-once discipline (src/download `Task`,
`Scheduler.closeTaskDataChan`) -/

/-- The data channel together with its `sync.Once` latch; `closeCount`
counts how many times `close(chan)` actually ran (Go panics on a second
close, so the invariant `closeCount ≤ 1` is the safety property). -/
structure ChanState where
  onceDone : Bool
  closeCount : Nat
deriving DecidableEq, Repr

/-- Model of `Scheduler.closeTaskDataChan`: `closeOnce.Do(close(dataChan))`. -/
def closeTaskDataChan (c : ChanState) : ChanState :=
  if c.onceDone then c else { onceDone := true, closeCount := c.closeCount + 1 }

structure TaskState where
  status : String
  chan : ChanState
deriving DecidableEq, Repr

/-- A freshly created task (`StartDownload`): status `pending`, channel
open, once-latch unused. -/
def newTaskState : TaskState :=
  { status := "pending", chan := { onceDone := false, closeCount := 0 } }

/-- The status/channel transitions performed on a task by the scheduler.
`startWork` is the worker entry (`downloadTask` sets `downloading`; it is
spawned exactly once, on creation, while the task is still `pending`);
`pauseSignal` and `resumeSignal` follow the guarded transitions of
`PauseLowPriorityTasks` and the worker's pause loop; `completeHTTP`,
`completeYTDLP` and `fail` are the terminal transitions, each followed
immediately by `closeTaskDataChan` in the source. -/
inductive TaskEvent where
  | startWork
  | pauseSignal
  | resumeSignal
  | completeHTTP
  | completeYTDLP
  | fail
deriving DecidableEq, Repr

def taskStep (t : TaskState) : TaskEvent → TaskState
  | TaskEvent.startWork =>
      if t.status = "pending" then { t with status := "downloading" } else t
  | TaskEvent.pauseSignal =>
      if t.status = "downloading" then { t with status := "paused" } else t
  | TaskEvent.resumeSignal =>
      if t.status = "paused" then { t with status := "downloading" } else t
  | TaskEvent.completeHTTP => { status := "complete", chan := closeTaskDataChan t.chan }
  | TaskEvent.completeYTDLP => { status := "complete", chan := closeTaskDataChan t.chan }
  | TaskEvent.fail => { status := "failed", chan := closeTaskDataChan t.chan }

/-- A task's state after any sequence of scheduler transitions. -/
def taskRun (evs : List TaskEvent) : TaskState := evs.foldl taskStep newTaskState

/-! ## Failed-download error surfacing (src/download
`Scheduler.writeDownloadError`) -/

/-- A persisted log record (src/database `Log`). -/
structure LogEntry where
  level : String
  message : String
  url : String
  fileHash : String
  createdAt : Nat
deriving DecidableEq, Repr

/-- Model of `db.Where("file_hash = ? AND level = ?", h, "error")
.Order("created_at DESC").First(&logEntry)`: the matching entry with the
greatest `createdAt` (none when no entry matches, in which case gorm
leaves the zero value, i.e. an empty message). -/
def pickLatestStep (best : Option LogEntry) (e : LogEntry) : Option LogEntry :=
  match best with
  | none => some e
  | some b => if b.createdAt < e.createdAt then some e else some b

def latestErrorLog (logs : List LogEntry) (h : String) : Option LogEntry :=
  (logs.filter (fun e => e.level == "error" && e.fileHash == h)).foldl pickLatestStep none

/-- Drop leading ASCII space characters. -/
def dropSpaces (l : List Char) : List Char := l.dropWhile (fun c => c = ' ')

/-- Match the literal part of a Go scan format against the input: a space
in the format consumes any run of spaces in the input, any other character
must match exactly; returns the unconsumed input. -/
def matchLiteral : List Char → List Char → Option (List Char)
  | [], input => some input
  | f :: fs, input =>
    if f = ' ' then matchLiteral fs (dropSpaces input)
    else
      match input with
      | [] => none
      | c :: rest => if c = f then matchLiteral fs rest else none

/-- Scan a run of decimal digits (at least one). -/
def parseGoDigits (l : List Char) : Option Nat :=
  let ds := l.takeWhile Char.isDigit
  if ds.isEmpty then none else some (parseDecAcc 0 ds)

/-- Model of the `%d` verb of `fmt.Sscanf`: skip spaces, optional sign,
then decimal digits (at least one, else the scan errors). -/
def parseGoInt (input : List Char) : Option Int :=
  let l := dropSpaces input
  if l.head? = some '-' then (parseGoDigits l.tail).map (fun n => -(n : Int))
  else if l.head? = some '+' then (parseGoDigits l.tail).map (fun n => (n : Int))
  else (parseGoDigits l).map (fun n => (n : Int))

/-- Model of `fmt.Sscanf(msg, fmt ++ " %d", &code)` for the two literal
formats used by `writeDownloadError` (the trailing space of the Go format
is subsumed by the whitespace skipping of `%d`). -/
def goSscanfInt (format msg : String) : Option Int :=
  (matchLiteral format.data msg.data).bind parseGoInt

/-- Model of `strings.CutPrefix(errorMsg, "Download failed: ")` as used in
`writeDownloadError` (keep the remainder when the message starts with the
marker, else the message unchanged). -/
def cutDownloadFailed (s : String) : String :=
  if ("Download failed: ").data.isPrefixOf s.data then
    String.mk (s.data.drop ("Download failed: ").length)
  else s

/-- The status/body computation of `writeDownloadError` as a function of
the log message found (the zero value `""` when no entry matched): try the
two Sscanf patterns when the message mentions an unexpected status code,
fall back to 502, and strip the `Download failed: ` marker from the body. -/
def downloadErrorReply (msg : String) : Int × String :=
  let parsed : Int :=
    if msg ≠ "" then
      if goContains msg "unexpected status code:" then
        match goSscanfInt "Download failed: unexpected status code:" msg with
        | some code => code
        | none =>
          match goSscanfInt "unexpected status code:" msg with
          | some code => code
          | none => 502
      else 502
    else 502
  let errorMsg := if msg ≠ "" then msg else "Download failed"
  (parsed, cutDownloadFailed errorMsg)

/-- Model of `Scheduler.writeDownloadError`: the status code and body text
of the `http.Error` reply produced for a failed record (the body is the
message followed by a newline added by `http.Error`). -/
def writeDownloadError (logs : List LogEntry) (fileHash : String) : Int × String :=
  downloadErrorReply
    (match latestErrorLog logs fileHash with
     | some e => e.message
     | none => "")

/-! ## CONNECT forwarding (src/proxy `MITMProxy.forwardConnect`,
`MITMProxy.handleHTTPS`) -/

/-- A configured CDN rule (src/config `CDNRule`). -/
structure CDNRule where
  domain : String
  matchPattern : String
  dedupStrategy : String
deriving DecidableEq, Repr

/-- Model of `MITMProxy.shouldIntercept`: some rule's domain occurs in the
host. -/
def shouldIntercept (rules : List CDNRule) (host : String) : Bool :=
  rules.any (fun rule => goContains host rule.domain)

inductive ConnectOutcome where
  | httpError (status : Nat) (msg : String)
  | relayTunnel (upstreamHostPort : String) (connectRequest : String) (clientResponse : String)
deriving DecidableEq, Repr

/-- Model of `MITMProxy.forwardConnect`.  External effects are parameters:
`parsedProxyHost` the result of `url.Parse(upstream).Host`, `dialOk` /
`dialErrMsg` the outcome of `net.Dial`, `hijackSupported` and
`hijackErrMsg` the hijack of the client connection.  On full success the
proxy has dialed the upstream, written the CONNECT request to it, replied
`200 Connection Established` to the client, and relays bytes both ways. -/
def forwardConnect (upstreamProxy : String) (parsedProxyHost : Option String)
    (dialOk : Bool) (dialErrMsg : String) (hijackSupported : Bool)
    (hijackErrMsg : Option String) (target : String) : ConnectOutcome :=
  if upstreamProxy = "" then ConnectOutcome.httpError 502 "No upstream proxy configured"
  else
    match parsedProxyHost with
    | none => ConnectOutcome.httpError 500 "Invalid upstream proxy"
    | some proxyHost =>
      if !dialOk then ConnectOutcome.httpError 502 dialErrMsg
      else if !hijackSupported then ConnectOutcome.httpError 500 "Hijacking not supported"
      else
        match hijackErrMsg with
        | some e => ConnectOutcome.httpError 503 e
        | none =>
          ConnectOutcome.relayTunnel proxyHost
            ("CONNECT " ++ target ++ " HTTP/1.1\r\nHost: " ++ target ++ "\r\n\r\n")
            "HTTP/1.1 200 Connection Established\r\n\r\n"

/-- Model of the `host += ":443"` normalization at the top of
`handleHTTPS`. -/
def connectTargetHost (host : String) : String :=
  if goContains host ":" then host else host ++ ":443"

inductive HTTPSAction where
  | forwarded (o : ConnectOutcome)
  | mitm (target : String)
deriving DecidableEq, Repr

/-- Model of `MITMProxy.handleHTTPS`: non-intercepted hosts go to
`forwardConnect`; intercepted hosts enter the MITM path. -/
def handleHTTPS (rules : List CDNRule) (upstreamProxy : String)
    (parsedProxyHost : Option String) (dialOk : Bool) (dialErrMsg : String)
    (hijackSupported : Bool) (hijackErrMsg : Option String) (rHost : String) : HTTPSAction :=
  let target := connectTargetHost rHost
  if !shouldIntercept rules rHost then
    HTTPSAction.forwarded
      (forwardConnect upstreamProxy parsedProxyHost dialOk dialErrMsg hijackSupported
        hijackErrMsg target)
  else HTTPSAction.mitm target

/-! ## Auxiliary definitions for the proofs -/

/-- A scan format literal is well-spaced when no space is its last
character and no two spaces are adjacent (true of both formats used by
`writeDownloadError`). -/
def wellSpaced : List Char → Bool
  | [] => true
  | c :: cs =>
    if c = ' ' then
      match cs with
      | [] => false
      | d :: _ => decide (d ≠ ' ') && wellSpaced cs
    else wellSpaced cs

/-- The task-channel invariant: `close` ran at most once, the once-latch
records exactly whether it ran, and the channel is closed exactly when the
task status is terminal. -/
def taskInv (t : TaskState) : Prop :=
  t.chan.closeCount ≤ 1 ∧
    (t.chan.onceDone = true ↔ t.chan.closeCount = 1) ∧
    ((t.status = "complete" ∨ t.status = "failed") ↔ t.chan.closeCount = 1)

/-- Peek-layer state after `detectProtocol` buffered two bytes `[1, 2]`
while the underlying connection still holds `[3, 4]`. -/
def peekFixture : PeekConn := { peeked := false, buffer := [1, 2], stream := [3, 4] }

/-- A record inserted by a concurrent winner of the first-seen race for the
fingerprint of `("https://cdn.example/a.bin", "", full_url)`. -/
def raceWinner : DBFile :=
  { fileHash := ComputeFileHash "https://cdn.example/a.bin" "" "full_url",
    originalURL := "https://cdn.example/a.bin", requestCookie := "",
    filename := "a.bin", fileSize := 0, savedPath := "cache/a",
    downloadStatus := "pending", lastAccessedAt := 0 }

/-- An error log entry with the exact message `handleDownloadError` writes
for an upstream 404. -/
def statusEntry404 : LogEntry :=
  { level := "error",
    message := "Download failed: unexpected status code: " ++ natString 404,
    url := "https://cdn.example/a.bin", fileHash := "h9", createdAt := 5 }

/-- An error log entry whose message contains the status-code phrase in the
middle rather than at the start. -/
def midStringEntry : LogEntry :=
  { level := "error", message := "oops: unexpected status code: 404",
    url := "https://cdn.example/a.bin", fileHash := "h1", createdAt := 1 }

/-! ## Supporting lemmas -/

theorem splitOnChar_ne_nil (sep : Char) (l : List Char) : splitOnChar sep l ≠ [] := by
  cases l with
  | nil => simp [splitOnChar]
  | cons c cs =>
    simp only [splitOnChar]
    cases h : splitOnChar sep cs with
    | nil => simp
    | cons g gs =>
      by_cases hc : c = sep <;> simp [hc]

theorem splitOnChar_append_sep (sep : Char) (xs ys : List Char) :
    splitOnChar sep (xs ++ sep :: ys) = splitOnChar sep xs ++ splitOnChar sep ys := by
  induction xs with
  | nil =>
    show splitOnChar sep (sep :: ys) = [] :: splitOnChar sep ys
    simp only [splitOnChar]
    cases h : splitOnChar sep ys with
    | nil => exact absurd h (splitOnChar_ne_nil sep ys)
    | cons g gs => simp
  | cons c cs ih =>
    show splitOnChar sep (c :: (cs ++ sep :: ys)) = _
    simp only [splitOnChar, ih]
    cases h : splitOnChar sep cs with
    | nil => exact absurd h (splitOnChar_ne_nil sep cs)
    | cons g gs =>
      by_cases hc : c = sep <;> simp [hc]

theorem splitOnChar_eq_single (sep : Char) (l : List Char) (h : sep ∉ l) :
    splitOnChar sep l = [l] := by
  induction l with
  | nil => rfl
  | cons c cs ih =>
    simp only [List.mem_cons, not_or] at h
    simp only [splitOnChar, ih h.2]
    simp [Ne.symm h.1, h.1]

theorem parseDecAcc_append (acc : Nat) (xs ys : List Char) :
    parseDecAcc acc (xs ++ ys) = parseDecAcc (parseDecAcc acc xs) ys := by
  simp [parseDecAcc, List.foldl_append]

theorem charVal_digitChar (d : Nat) (h : d < 10) : charVal (digitChar d) = d := by
  interval_cases d <;> decide

theorem parseDecAcc_natChars (n : Nat) : parseDecAcc 0 (natChars n) = n := by
  induction n using Nat.strong_induction_on with
  | _ n ih =>
    by_cases h : n < 10
    · rw [natChars]
      simp [h, parseDecAcc, List.foldl, charVal_digitChar n h]
    · rw [natChars]
      simp only [h, dite_false, parseDecAcc_append]
      rw [ih (n / 10) (Nat.div_lt_self (by omega) (by omega))]
      simp only [parseDecAcc, List.foldl, charVal_digitChar (n % 10) (Nat.mod_lt _ (by omega))]
      omega

theorem natChars_injective : Function.Injective natChars := by
  intro a b h
  have ha := parseDecAcc_natChars a
  have hb := parseDecAcc_natChars b
  rw [h] at ha
  omega

theorem digitChar_isDigit (d : Nat) (h : d < 10) : (digitChar d).isDigit = true := by
  interval_cases d <;> decide

theorem natChars_all_digits (n : Nat) : ∀ c ∈ natChars n, c.isDigit = true := by
  induction n using Nat.strong_induction_on with
  | _ n ih =>
    intro c hc
    by_cases h : n < 10
    · rw [natChars] at hc
      simp [h] at hc
      exact hc ▸ digitChar_isDigit n h
    · rw [natChars] at hc
      simp only [h, dite_false, List.mem_append, List.mem_singleton] at hc
      rcases hc with hc | hc
      · exact ih (n / 10) (Nat.div_lt_self (by omega) (by omega)) c hc
      · exact hc ▸ digitChar_isDigit (n % 10) (Nat.mod_lt _ (by omega))

theorem bytesToHexChars_length (bs : List Nat) :
    (bytesToHexChars bs).length = 2 * bs.length := by
  induction bs with
  | nil => rfl
  | cons b bs ih => simp [bytesToHexChars, ih]; omega

theorem sha256Bytes_length (msg : List Nat) : (sha256Bytes msg).length = 32 := by
  simp [sha256Bytes, be4]

theorem sha256Hex_length (s : String) : (sha256Hex s).length = 64 := by
  show (String.mk (bytesToHexChars (sha256Bytes (utf8Bytes s)))).length = 64
  simp [String.length, bytesToHexChars_length, sha256Bytes_length]

/-- Characters emitted by `hexChar` on values below sixteen. -/
theorem hexChar_mem (n : Nat) (h : n < 16) : hexChar n ∈ ("0123456789abcdef").data := by
  interval_cases n <;> decide

theorem be4_lt (w : Nat) : ∀ b ∈ be4 w, b < 256 := by
  simp only [be4, List.mem_cons, List.not_mem_nil, or_false]
  rintro b (rfl | rfl | rfl | rfl) <;> exact Nat.mod_lt _ (by omega)

theorem sha256Bytes_lt (msg : List Nat) : ∀ b ∈ sha256Bytes msg, b < 256 := by
  simp only [sha256Bytes, List.mem_append]
  rintro b (((((((hb | hb) | hb) | hb) | hb) | hb) | hb) | hb) <;> exact be4_lt _ b hb

theorem bytesToHexChars_mem (bs : List Nat) (hb : ∀ b ∈ bs, b < 256) :
    ∀ c ∈ bytesToHexChars bs, c ∈ ("0123456789abcdef").data := by
  induction bs with
  | nil => simp [bytesToHexChars]
  | cons b bs ih =>
    have hblt : b < 256 := hb b (by simp)
    intro c hc
    simp only [bytesToHexChars, List.mem_cons] at hc
    rcases hc with rfl | rfl | hc
    · exact hexChar_mem _ (by omega)
    · exact hexChar_mem _ (Nat.mod_lt _ (by omega))
    · exact ih (fun x hx => hb x (by simp [hx])) c hc

/-- Every character of a SHA-256 hex digest is a lower-case hex digit. -/
theorem sha256Hex_hexdigits (s : String) :
    ∀ c ∈ (sha256Hex s).data, c ∈ ("0123456789abcdef").data :=
  bytesToHexChars_mem _ (sha256Bytes_lt _)



theorem goLastSegment_append (p f : String) (hf : '/' ∉ f.data) :
    goLastSegment (p ++ "/" ++ f) = f := by
  unfold goLastSegment
  have hdata : (p ++ "/" ++ f).data = p.data ++ '/' :: f.data := by
    simp [String.data_append]
  rw [hdata, splitOnChar_append_sep, splitOnChar_eq_single '/' f.data hf]
  cases f with
  | mk fdata =>
    congr 1
    rcases hsplit : splitOnChar '/' p.data with _ | ⟨g, gs⟩
    · exact absurd hsplit (splitOnChar_ne_nil '/' p.data)
    · simp [List.getLastD]

theorem string_append_right_cancel (a b c : String) (h : a ++ c = b ++ c) : a = b := by
  cases a with
  | mk adata =>
    cases b with
    | mk bdata =>
      have : adata ++ c.data = bdata ++ c.data := by
        have := congrArg String.data h
        simpa [String.data_append] using this
      exact congrArg String.mk (List.append_cancel_right this)

theorem hashInput_full_url (u cookie : String) :
    hashInput u cookie "full_url" = if cookie ≠ "" then u ++ "|" ++ cookie else u := rfl

theorem hashInput_filename_only (u cookie : String) :
    hashInput u cookie "filename_only" =
      if cookie ≠ "" then goStripQuery (goLastSegment u) ++ "|" ++ cookie
      else goStripQuery (goLastSegment u) := rfl

/-- The full-URL hash inputs with a common cookie stay distinct for distinct
URLs. -/
theorem hashInput_full_url_injective (u1 u2 cookie : String) (h : u1 ≠ u2) :
    hashInput u1 cookie "full_url" ≠ hashInput u2 cookie "full_url" := by
  rw [hashInput_full_url, hashInput_full_url]
  by_cases hc : cookie = ""
  · simpa [hc] using h
  · rw [if_pos (by simpa using hc), if_pos (by simpa using hc)]
    intro heq
    exact h (string_append_right_cancel u1 u2 ("|" ++ cookie) (by
      simpa [String.append_assoc] using heq))

theorem string_length_pos_ne_empty (s : String) (h : s.length = 64) : s ≠ "" := by
  intro he
  rw [he] at h
  simp [String.length] at h

theorem goContains_append_right (a b : String) : goContains (a ++ b) b = true := by
  unfold goContains
  rw [List.any_eq_true]
  refine ⟨b.data, ?_, ?_⟩
  · rw [String.data_append, List.mem_tails]
    exact ⟨a.data, rfl⟩
  · exact List.isPrefixOf_iff_prefix.mpr (List.prefix_refl _)

theorem natChars_ne_nil (n : Nat) : natChars n ≠ [] := by
  rw [natChars]
  by_cases h : n < 10 <;> simp [h]

theorem dropSpaces_of_digits (l : List Char) (h : ∀ c ∈ l, c.isDigit = true) :
    dropSpaces l = l := by
  cases l with
  | nil => rfl
  | cons c cs =>
    have hc : c.isDigit = true := h c (by simp)
    have : ¬(c = ' ') := by
      intro he
      rw [he] at hc
      simp [Char.isDigit] at hc
    simp [dropSpaces, List.dropWhile_cons, this]

theorem takeWhile_of_digits (l : List Char) (h : ∀ c ∈ l, c.isDigit = true) :
    l.takeWhile Char.isDigit = l := by
  induction l with
  | nil => rfl
  | cons c cs ih =>
    rw [List.takeWhile_cons, h c (by simp)]
    simp [ih (fun x hx => h x (by simp [hx]))]

theorem parseGoDigits_natChars (n : Nat) : parseGoDigits (natChars n) = some n := by
  unfold parseGoDigits
  rw [takeWhile_of_digits _ (natChars_all_digits n)]
  rw [if_neg (by simp [List.isEmpty_iff, natChars_ne_nil n])]
  rw [parseDecAcc_natChars]

theorem digit_ne_minus (c : Char) (h : c.isDigit = true) : c ≠ '-' := by
  intro he
  rw [he] at h
  simp [Char.isDigit] at h

theorem digit_ne_plus (c : Char) (h : c.isDigit = true) : c ≠ '+' := by
  intro he
  rw [he] at h
  simp [Char.isDigit] at h

theorem parseGoInt_of_digits (l : List Char) (hl : l ≠ [])
    (hdig : ∀ c ∈ l, c.isDigit = true) :
    parseGoInt l = (parseGoDigits l).map (fun n => (n : Int)) := by
  unfold parseGoInt
  rw [dropSpaces_of_digits l hdig]
  rcases l with _ | ⟨c, rest⟩
  · exact absurd rfl hl
  · have hc : c.isDigit = true := hdig c (by simp)
    rw [if_neg, if_neg]
    · simp only [List.head?_cons, Option.some.injEq]
      exact digit_ne_plus c hc
    · simp only [List.head?_cons, Option.some.injEq]
      exact digit_ne_minus c hc

theorem parseGoInt_natChars (n : Nat) : parseGoInt (natChars n) = some (n : Int) := by
  rw [parseGoInt_of_digits _ (natChars_ne_nil n) (natChars_all_digits n),
    parseGoDigits_natChars]
  rfl

theorem dropSpaces_space_cons (l : List Char) : dropSpaces (' ' :: l) = dropSpaces l := by
  simp [dropSpaces, List.dropWhile_cons]

theorem parseGoInt_space_digits (n : Nat) :
    parseGoInt (' ' :: natChars n) = some (n : Int) := by
  have hd : dropSpaces (' ' :: natChars n) = natChars n := by
    rw [dropSpaces_space_cons]
    exact dropSpaces_of_digits _ (natChars_all_digits n)
  have hd2 : dropSpaces (natChars n) = natChars n :=
    dropSpaces_of_digits _ (natChars_all_digits n)
  unfold parseGoInt
  rw [hd, ← hd2]
  show parseGoInt (natChars n) = some (n : Int)
  exact parseGoInt_natChars n

theorem matchLiteral_cons (f : Char) (fs input : List Char) :
    matchLiteral (f :: fs) input =
      if f = ' ' then matchLiteral fs (dropSpaces input)
      else
        match input with
        | [] => none
        | c :: rest => if c = f then matchLiteral fs rest else none := rfl

theorem wellSpaced_space_cons (d : Char) (cs : List Char) :
    wellSpaced (' ' :: d :: cs) = (decide (d ≠ ' ') && wellSpaced (d :: cs)) := rfl

theorem wellSpaced_cons_of_ne (c : Char) (cs : List Char) (hc : c ≠ ' ') :
    wellSpaced (c :: cs) = wellSpaced cs := by
  show (if c = ' ' then _ else wellSpaced cs) = wellSpaced cs
  rw [if_neg hc]

theorem matchLiteral_self_append (fs rest : List Char) (hws : wellSpaced fs = true) :
    matchLiteral fs (fs ++ rest) = some rest := by
  induction fs with
  | nil => rfl
  | cons c cs ih =>
    by_cases hc : c = ' '
    · subst hc
      rcases cs with _ | ⟨d, cs2⟩
      · simp [wellSpaced] at hws
      · rw [wellSpaced_space_cons] at hws
        have hd : d ≠ ' ' := by
          rcases Bool.and_eq_true_iff.mp hws with ⟨h1, _⟩
          simpa using h1
        have hws2 : wellSpaced (d :: cs2) = true :=
          (Bool.and_eq_true_iff.mp hws).2
        rw [matchLiteral_cons, if_pos rfl, List.cons_append, dropSpaces_space_cons,
          List.cons_append]
        have hdw : dropSpaces (d :: (cs2 ++ rest)) = d :: (cs2 ++ rest) := by
          unfold dropSpaces
          rw [List.dropWhile_cons]
          simp [hd]
        rw [hdw, ← List.cons_append]
        exact ih hws2
    · have hws2 : wellSpaced cs = true := by
        rwa [wellSpaced_cons_of_ne c cs hc] at hws
      rw [List.cons_append, matchLiteral_cons, if_neg hc]
      simp only [if_pos rfl]
      exact ih hws2

theorem matchLiteral_head_mismatch (f : Char) (fs : List Char) (c : Char) (cs : List Char)
    (hf : f ≠ ' ') (hc : c ≠ f) : matchLiteral (f :: fs) (c :: cs) = none := by
  rw [matchLiteral_cons, if_neg hf]
  simp [hc]

theorem cutDownloadFailed_append (s : String) :
    cutDownloadFailed ("Download failed: " ++ s) = s := by
  unfold cutDownloadFailed
  rw [if_pos]
  · rw [String.data_append]
    have : (("Download failed: ").data ++ s.data).drop (("Download failed: ").length) =
        s.data := List.drop_left _ _
    rw [this]
  · rw [String.data_append]
    exact List.isPrefixOf_iff_prefix.mpr ⟨s.data, rfl⟩

theorem cutDownloadFailed_head_ne (s : String) (c : Char) (cs : List Char)
    (hdata : s.data = c :: cs) (hc : c ≠ 'D') : cutDownloadFailed s = s := by
  unfold cutDownloadFailed
  rw [if_neg]
  rw [hdata]
  show ¬('D' :: ("ownload failed: ").data).isPrefixOf (c :: cs) = true
  rw [List.isPrefixOf]
  simp [Ne.symm hc]

theorem pickLatestStep_none (e : LogEntry) : pickLatestStep none e = some e := rfl

theorem pickLatestStep_some (b e : LogEntry) :
    pickLatestStep (some b) e =
      if b.createdAt < e.createdAt then some e else some b := rfl

theorem pickLatest_foldl_mem (l : List LogEntry) (acc : Option LogEntry) (e : LogEntry)
    (h : l.foldl pickLatestStep acc = some e) : e ∈ l ∨ acc = some e := by
  induction l generalizing acc with
  | nil => exact Or.inr h
  | cons c cs ih =>
    rw [List.foldl_cons] at h
    rcases ih (pickLatestStep acc c) h with hm | hm
    · exact Or.inl (by simp [hm])
    · rcases acc with _ | b
      · rw [pickLatestStep_none] at hm
        simp at hm
        exact Or.inl (by simp [hm])
      · rw [pickLatestStep_some] at hm
        by_cases hlt : b.createdAt < c.createdAt
        · rw [if_pos hlt] at hm
          simp at hm
          exact Or.inl (by simp [hm])
        · rw [if_neg hlt] at hm
          exact Or.inr hm

theorem pickLatest_foldl_max (l : List LogEntry) (acc : Option LogEntry) (e : LogEntry)
    (h : l.foldl pickLatestStep acc = some e) :
    (∀ f ∈ l, f.createdAt ≤ e.createdAt) ∧
      (∀ b, acc = some b → b.createdAt ≤ e.createdAt) := by
  induction l generalizing acc with
  | nil =>
    simp only [List.foldl_nil] at h
    refine ⟨by simp, fun b hb => ?_⟩
    rw [h] at hb
    simp only [Option.some.injEq] at hb
    rw [hb]
  | cons c cs ih =>
    rw [List.foldl_cons] at h
    obtain ⟨ih1, ih2⟩ := ih (pickLatestStep acc c) h
    have hcle : c.createdAt ≤ e.createdAt := by
      rcases acc with _ | b
      · exact ih2 c (pickLatestStep_none c)
      · by_cases hlt : b.createdAt < c.createdAt
        · exact ih2 c (by rw [pickLatestStep_some, if_pos hlt])
        · exact le_trans (by omega) (ih2 b (by rw [pickLatestStep_some, if_neg hlt]))
    refine ⟨fun f hf => ?_, fun b hb => ?_⟩
    · rcases List.mem_cons.mp hf with rfl | hf
      · exact hcle
      · exact ih1 f hf
    · subst hb
      by_cases hlt : b.createdAt < c.createdAt
      · exact le_trans (by omega) (ih2 c (by rw [pickLatestStep_some, if_pos hlt]))
      · exact ih2 b (by rw [pickLatestStep_some, if_neg hlt])

theorem not_terminal_count_zero (t : TaskState) (h : taskInv t)
    (hnc : t.status ≠ "complete") (hnf : t.status ≠ "failed") :
    t.chan.closeCount = 0 := by
  obtain ⟨h1, _, h3⟩ := h
  have hne : ¬(t.chan.closeCount = 1) := fun hc => by
    rcases h3.mpr hc with hs | hs
    exacts [hnc hs, hnf hs]
  omega

theorem taskInv_set_status (t : TaskState) (h : taskInv t) (snew : String)
    (holdc : t.status ≠ "complete") (holdf : t.status ≠ "failed")
    (hnewc : snew ≠ "complete") (hnewf : snew ≠ "failed") :
    taskInv { t with status := snew } := by
  obtain ⟨h1, h2, h3⟩ := h
  have hc0 : t.chan.closeCount = 0 := not_terminal_count_zero t ⟨h1, h2, h3⟩ holdc holdf
  refine ⟨h1, h2, ?_⟩
  constructor
  · rintro (hs | hs)
    exacts [absurd hs hnewc, absurd hs hnewf]
  · intro hc
    have hcc : t.chan.closeCount = 1 := hc
    omega

theorem taskInv_close_terminal (t : TaskState) (h : taskInv t) (snew : String)
    (hterm : snew = "complete" ∨ snew = "failed") :
    taskInv { status := snew, chan := closeTaskDataChan t.chan } := by
  obtain ⟨h1, h2, h3⟩ := h
  unfold closeTaskDataChan
  by_cases ho : t.chan.onceDone = true
  · rw [if_pos ho]
    exact ⟨h1, h2, iff_of_true hterm (h2.mp ho)⟩
  · rw [if_neg ho]
    have hc0 : t.chan.closeCount = 0 := by
      have hne : ¬(t.chan.closeCount = 1) := fun hc => ho (h2.mpr hc)
      omega
    refine ⟨by simp [hc0], by simp [hc0], ?_⟩
    exact iff_of_true hterm (by simp [hc0])

theorem taskStep_preserves (t : TaskState) (e : TaskEvent) (h : taskInv t) :
    taskInv (taskStep t e) := by
  cases e with
  | startWork =>
    by_cases hs : t.status = "pending"
    · show taskInv (if t.status = "pending" then { t with status := "downloading" } else t)
      rw [if_pos hs]
      exact taskInv_set_status t h _ (by rw [hs]; decide) (by rw [hs]; decide)
        (by decide) (by decide)
    · show taskInv (if t.status = "pending" then { t with status := "downloading" } else t)
      rwa [if_neg hs]
  | pauseSignal =>
    by_cases hs : t.status = "downloading"
    · show taskInv (if t.status = "downloading" then { t with status := "paused" } else t)
      rw [if_pos hs]
      exact taskInv_set_status t h _ (by rw [hs]; decide) (by rw [hs]; decide)
        (by decide) (by decide)
    · show taskInv (if t.status = "downloading" then { t with status := "paused" } else t)
      rwa [if_neg hs]
  | resumeSignal =>
    by_cases hs : t.status = "paused"
    · show taskInv (if t.status = "paused" then { t with status := "downloading" } else t)
      rw [if_pos hs]
      exact taskInv_set_status t h _ (by rw [hs]; decide) (by rw [hs]; decide)
        (by decide) (by decide)
    · show taskInv (if t.status = "paused" then { t with status := "downloading" } else t)
      rwa [if_neg hs]
  | completeHTTP => exact taskInv_close_terminal t h _ (Or.inl rfl)
  | completeYTDLP => exact taskInv_close_terminal t h _ (Or.inl rfl)
  | fail => exact taskInv_close_terminal t h _ (Or.inr rfl)

theorem taskInv_newTaskState : taskInv newTaskState := by
  refine ⟨by decide, by decide, ?_⟩
  constructor
  · rintro (hs | hs) <;> simp [newTaskState] at hs
  · intro hc
    simp [newTaskState] at hc

theorem taskInv_foldl (evs : List TaskEvent) (t : TaskState) (h : taskInv t) :
    taskInv (evs.foldl taskStep t) := by
  induction evs generalizing t with
  | nil => exact h
  | cons e es ih =>
    rw [List.foldl_cons]
    exact ih _ (taskStep_preserves t e h)

theorem taskRun_inv (evs : List TaskEvent) : taskInv (taskRun evs) :=
  taskInv_foldl evs newTaskState taskInv_newTaskState

theorem latestErrorLog_spec (logs : List LogEntry) (hsh : String) (e : LogEntry)
    (h : latestErrorLog logs hsh = some e) :
    e ∈ logs ∧ e.level = "error" ∧ e.fileHash = hsh ∧
      ∀ f ∈ logs, f.level = "error" → f.fileHash = hsh →
        f.createdAt ≤ e.createdAt := by
  unfold latestErrorLog at h
  have hmem := pickLatest_foldl_mem _ _ _ h
  simp only [Option.some.injEq] at hmem
  rcases hmem with hmem | hmem
  · rw [List.mem_filter] at hmem
    obtain ⟨hin, hcond⟩ := hmem
    rcases Bool.and_eq_true_iff.mp hcond with ⟨h1, h2⟩
    refine ⟨hin, by simpa using h1, by simpa using h2, fun f hf hfl hfh => ?_⟩
    exact (pickLatest_foldl_max _ _ _ h).1 f
      (List.mem_filter.mpr ⟨hf, by simp [hfl, hfh]⟩)
  · simp at hmem

/-! ## Claim theorems -/

/-- C1 (amended): the fingerprint computation is deterministic (it is a
pure function of its inputs, so two calls agree) and returns a non-empty
64-character lower-case hex string; under strategy `filename_only`, any two
URLs that differ only in the path prefix but share the same final path
segment (with equal cookies) map to the same fileHash; under strategy
`full_url` with equal cookies, two distinct URLs map to distinct SHA-256
hash inputs — hence to distinct fileHashes except in the event of a SHA-256
collision.  (As literally stated, distinctness of the digests fails for
unequal cookies: see the counterexample.) -/
theorem computeFileHash_deterministic_strategy_sensitive :
    (∀ url cookie strategy : String,
        ComputeFileHash url cookie strategy = ComputeFileHash url cookie strategy ∧
        (ComputeFileHash url cookie strategy).length = 64 ∧
        ComputeFileHash url cookie strategy ≠ "" ∧
        ∀ c ∈ (ComputeFileHash url cookie strategy).data, c ∈ ("0123456789abcdef").data) ∧
    (∀ p1 p2 f cookie : String, '/' ∉ f.data →
        ComputeFileHash (p1 ++ "/" ++ f) cookie "filename_only" =
          ComputeFileHash (p2 ++ "/" ++ f) cookie "filename_only") ∧
    (∀ u1 u2 cookie : String, u1 ≠ u2 →
        hashInput u1 cookie "full_url" ≠ hashInput u2 cookie "full_url") := by
  refine ⟨fun url cookie strategy =>
    ⟨rfl, sha256Hex_length _, string_length_pos_ne_empty _ (sha256Hex_length _),
      sha256Hex_hexdigits _⟩, ?_, hashInput_full_url_injective⟩
  intro p1 p2 f cookie hf
  unfold ComputeFileHash
  rw [hashInput_filename_only, hashInput_filename_only,
    goLastSegment_append p1 f hf, goLastSegment_append p2 f hf]

/-- Witness for C1: the theorem applied at concrete inputs. -/
theorem computeFileHash_deterministic_strategy_sensitive_checked :
    (ComputeFileHash "https://cdn.example/v.mp4" "sid=1" "filename_only").length = 64 ∧
    ComputeFileHash ("https://a.example/p" ++ "/" ++ "v.mp4") "sid=1" "filename_only" =
      ComputeFileHash ("https://b.example/q" ++ "/" ++ "v.mp4") "sid=1" "filename_only" ∧
    hashInput "https://a.example/1" "sid=1" "full_url" ≠
      hashInput "https://a.example/2" "sid=1" "full_url" :=
  ⟨(computeFileHash_deterministic_strategy_sensitive.1 _ _ _).2.1,
    computeFileHash_deterministic_strategy_sensitive.2.1
      "https://a.example/p" "https://b.example/q" "v.mp4" "sid=1" (by decide),
    computeFileHash_deterministic_strategy_sensitive.2.2
      "https://a.example/1" "https://a.example/2" "sid=1" (by decide)⟩

/-- C1 counterexample: under `full_url` the claim's unconditional
distinctness fails — the cookie delimiter is ambiguous, so the distinct
URLs "a" (with cookie "b|c") and "a|b" (with cookie "c") serialize to the
same hash input "a|b|c" and receive exactly the same fileHash. -/
theorem computeFileHash_full_url_cookie_boundary_collision :
    ComputeFileHash "a" "b|c" "full_url" = ComputeFileHash "a|b" "c" "full_url" ∧
    ("a" : String) ≠ "a|b" := by
  constructor
  · have h : hashInput "a" "b|c" "full_url" = hashInput "a|b" "c" "full_url" := by decide
    exact congrArg sha256Hex h
  · decide

/-- C10: for every dedup strategy outside {filename_only, full_url},
ComputeFileHash hashes the URL alone and ignores the cookie, so any two
cookies yield the same fileHash for the same URL. -/
theorem computeFileHash_unknown_strategy_ignores_cookie :
    ∀ url c1 c2 strategy : String,
      strategy ≠ "filename_only" → strategy ≠ "full_url" →
      hashInput url c1 strategy = url ∧
      ComputeFileHash url c1 strategy = ComputeFileHash url c2 strategy := by
  intro url c1 c2 s h1 h2
  have e1 : hashInput url c1 s = url := by
    unfold hashInput
    rw [if_neg h1, if_neg h2]
  have e2 : hashInput url c2 s = url := by
    unfold hashInput
    rw [if_neg h1, if_neg h2]
  refine ⟨e1, ?_⟩
  unfold ComputeFileHash
  rw [e1, e2]

/-- Witness for C10: a non-empty and an empty cookie share one cache entry
under an unrecognized strategy. -/
theorem computeFileHash_unknown_strategy_ignores_cookie_checked :
    hashInput "https://cdn.example/v.mp4" "auth=1" "mystery" = "https://cdn.example/v.mp4" ∧
    ComputeFileHash "https://cdn.example/v.mp4" "auth=1" "mystery" =
      ComputeFileHash "https://cdn.example/v.mp4" "" "mystery" :=
  computeFileHash_unknown_strategy_ignores_cookie
    "https://cdn.example/v.mp4" "auth=1" "" "mystery" (by decide) (by decide)

/-- C2 (amended): for every URL and rule, `MatchCDNRule` reports a match
iff the FULL URL STRING contains `domain` as a substring (not only its
host) AND (matchPattern is empty OR the regular-expression oracle matches
the URL without error); a domain occurring anywhere — path, query — makes
the URL match. -/
theorem matchCDNRule_url_substring_characterization :
    ∀ (rm : String → String → Except String Bool) (url domain pat : String),
      MatchCDNRule rm url domain pat = true ↔
        goContains url domain = true ∧ (pat = "" ∨ rm pat url = Except.ok true) := by
  intro rm url domain pat
  unfold MatchCDNRule
  by_cases hc : goContains url domain
  · simp only [hc, Bool.not_true, Bool.false_eq_true, if_false]
    by_cases hp : pat = ""
    · simp [hp]
    · rw [if_pos hp]
      cases hrm : rm pat url with
      | error e => simp [hrm, hp]
      | ok matched => cases matched <;> simp [hrm, hp]
  · simp only [Bool.not_eq_true] at hc
    simp [hc]

/-- C2 counterexample: the claim's host-based reading fails on the code —
a URL whose host is `evil.example` but whose path contains `youtube.com`
is reported as a match by `MatchCDNRule` (with empty pattern), while the
spec's host-contains-domain predicate rejects it. -/
theorem matchCDNRule_domain_in_path_matches :
    MatchCDNRule (fun _ _ => Except.error "") "http://evil.example/youtube.com/v" "youtube.com" "" = true ∧
    urlHostSpec "http://evil.example/youtube.com/v" = "evil.example" ∧
    goContains (urlHostSpec "http://evil.example/youtube.com/v") "youtube.com" = false ∧
    matchCDNRuleSpec (fun _ _ => Except.error "") "http://evil.example/youtube.com/v" "youtube.com" "" = false := by
  refine ⟨by decide, by decide, by decide, by decide⟩

/-- C8 (amended): when the first lookup misses and the insert is then
rejected by the store because a concurrent caller already inserted a
record with the same fileHash, `GetOrCreateFile` returns the
duplicate-insert error to its caller — it does not re-read and does not
return the winner's record. -/
theorem getOrCreateFile_lost_race_propagates_error :
    ∀ (db0 db1 : List DBFile) (now : Nat) (cacheDir url cookie filename strategy : String),
      dbFirst db0 (ComputeFileHash url cookie strategy) = none →
      (dbFirst db1 (ComputeFileHash url cookie strategy)).isSome = true →
      GetOrCreateFile db0 db1 now cacheDir url cookie filename strategy =
        Except.error DBError.uniqueViolation := by
  intro db0 db1 now cacheDir url cookie filename strategy h0 h1
  rcases hw : dbFirst db1 (ComputeFileHash url cookie strategy) with _ | w
  · rw [hw] at h1
    simp at h1
  · unfold GetOrCreateFile
    simp only [h0, hw]

/-- Witness for C8: the theorem applied to the concrete race with
`raceWinner` already inserted. -/
theorem getOrCreateFile_lost_race_propagates_error_checked :
    GetOrCreateFile [] [raceWinner] 1 "cache" "https://cdn.example/a.bin" "" "a.bin" "full_url" =
      Except.error DBError.uniqueViolation :=
  getOrCreateFile_lost_race_propagates_error [] [raceWinner] 1 "cache"
    "https://cdn.example/a.bin" "" "a.bin" "full_url" rfl
    (by simp [dbFirst, raceWinner, List.find?])

/-- C8 counterexample: the claim says the loser of the race re-reads and
returns the winner's record; on the code the duplicate insert is an error
returned to the caller, not the winner's record. -/
theorem getOrCreateFile_duplicate_insert_error :
    GetOrCreateFile [] [raceWinner] 2 "cache" "https://cdn.example/a.bin" "" "a.bin" "full_url" =
      Except.error DBError.uniqueViolation ∧
    ∀ db : List DBFile,
      GetOrCreateFile [] [raceWinner] 2 "cache" "https://cdn.example/a.bin" "" "a.bin" "full_url" ≠
        Except.ok (raceWinner, db) := by
  have h : GetOrCreateFile [] [raceWinner] 2 "cache" "https://cdn.example/a.bin" "" "a.bin" "full_url" =
      Except.error DBError.uniqueViolation := by
    unfold GetOrCreateFile
    simp [dbFirst, raceWinner, List.find?]
  exact ⟨h, fun db => by rw [h]; intro hcontra; exact Except.noConfusion hcontra⟩

theorem detectProtocol_cons (b : Nat) (rest : List Nat) :
    detectProtocol (b :: rest) =
      if b = 0x05 then some Protocol.socks5
      else
        if 4 ≤ (b :: rest.take 3).length ∧
            ((b :: rest.take 3).take 4 = asciiBytes "GET " ∨
             (b :: rest.take 3).take 4 = asciiBytes "POST" ∨
             (b :: rest.take 3).take 4 = asciiBytes "CONN" ∨
             (b :: rest.take 3).take 4 = asciiBytes "HEAD" ∨
             (b :: rest.take 3).take 4 = asciiBytes "PUT ") then
          some Protocol.http
        else if b = 0x16 then some Protocol.https
        else some Protocol.http := rfl

theorem detectProtocol_method (m0 m1 m2 m3 : Nat) (rest : List Nat) (h5 : m0 ≠ 0x05)
    (hm : [m0, m1, m2, m3] = asciiBytes "GET " ∨ [m0, m1, m2, m3] = asciiBytes "POST" ∨
      [m0, m1, m2, m3] = asciiBytes "CONN" ∨ [m0, m1, m2, m3] = asciiBytes "HEAD" ∨
      [m0, m1, m2, m3] = asciiBytes "PUT ") :
    detectProtocol (m0 :: m1 :: m2 :: m3 :: rest) = some Protocol.http := by
  rw [detectProtocol_cons, if_neg h5, if_pos]
  refine ⟨by simp, ?_⟩
  simpa [List.take] using hm

/-- C3 (code bug): after two bytes `[1, 2]` were peeked, a downstream
first read of size 1 returns `[1]` but sets `peeked = true`, so the second
read (size 10) bypasses the remaining buffered byte `2` and reads `[3, 4]`
from the underlying connection: the delivered stream is `[1, 3, 4]` and
never begins with the buffered bytes `[1, 2]` that the claim requires.
(The `p.buffer = p.buffer[n:]` slice in the source is dead under the
unconditional `p.peeked = true`.) -/
theorem peekConn_partial_first_read_drops_remainder :
    peekConnReads peekFixture [1, 10] = [1, 3, 4] ∧
    (peekConnReads peekFixture [1, 10]).take 2 ≠ [1, 2] := by
  constructor <;> decide

/-- C4 (amended): the demultiplexer dispatches first byte 0x05 to the
SOCKS5 handler when one is configured (and closes otherwise); first byte
0x16 (with a minted certificate) to the TLS handler; a known HTTP method
prefix (`GET `, `POST`, `CONN`, `HEAD`, `PUT `) to the HTTP loop; a
connection yielding no bytes is closed; and — contrary to the claim's
"otherwise close" — any other first bytes also fall through to the HTTP
loop, the code's explicit default. -/
theorem detectProtocol_dispatch_characterization :
    (∀ (rest : List Nat) (certOk : Bool),
        handleConnection true certOk (0x05 :: rest) = Dispatch.socks5Handler) ∧
    (∀ (rest : List Nat) (certOk : Bool),
        handleConnection false certOk (0x05 :: rest) = Dispatch.closed) ∧
    (∀ (rest : List Nat) (hasSocks5 : Bool),
        handleConnection hasSocks5 true (0x16 :: rest) = Dispatch.tlsHandler) ∧
    (∀ (m : List Nat) (rest : List Nat) (hasSocks5 certOk : Bool),
        (m = asciiBytes "GET " ∨ m = asciiBytes "POST" ∨ m = asciiBytes "CONN" ∨
         m = asciiBytes "HEAD" ∨ m = asciiBytes "PUT ") →
        handleConnection hasSocks5 certOk (m ++ rest) = Dispatch.httpLoop) ∧
    (∀ (b : Nat) (rest : List Nat) (hasSocks5 certOk : Bool),
        b ≠ 0x05 → b ≠ 0x16 →
        ¬(4 ≤ (b :: rest.take 3).length ∧
          ((b :: rest.take 3).take 4 = asciiBytes "GET " ∨
           (b :: rest.take 3).take 4 = asciiBytes "POST" ∨
           (b :: rest.take 3).take 4 = asciiBytes "CONN" ∨
           (b :: rest.take 3).take 4 = asciiBytes "HEAD" ∨
           (b :: rest.take 3).take 4 = asciiBytes "PUT ")) →
        handleConnection hasSocks5 certOk (b :: rest) = Dispatch.httpLoop) ∧
    (∀ hasSocks5 certOk : Bool, handleConnection hasSocks5 certOk [] = Dispatch.closed) := by
  refine ⟨?_, ?_, ?_, ?_, ?_, ?_⟩
  · intro rest certOk
    simp [handleConnection, detectProtocol]
  · intro rest certOk
    simp [handleConnection, detectProtocol]
  · intro rest hasSocks5
    have hdet : detectProtocol (0x16 :: rest) = some Protocol.https := by
      rw [detectProtocol_cons, if_neg (by decide), if_neg, if_pos rfl]
      rintro ⟨-, h | h | h | h | h⟩ <;>
        simpa [asciiBytes, List.take] using congrArg (fun l => l.headD 0) h
    simp [handleConnection, hdet]
  · intro m rest hasSocks5 certOk hm
    have hdet : detectProtocol (m ++ rest) = some Protocol.http := by
      rcases hm with rfl | rfl | rfl | rfl | rfl
      · show detectProtocol (71 :: 69 :: 84 :: 32 :: rest) = some Protocol.http
        exact detectProtocol_method 71 69 84 32 rest (by decide) (by decide)
      · show detectProtocol (80 :: 79 :: 83 :: 84 :: rest) = some Protocol.http
        exact detectProtocol_method 80 79 83 84 rest (by decide) (by decide)
      · show detectProtocol (67 :: 79 :: 78 :: 78 :: rest) = some Protocol.http
        exact detectProtocol_method 67 79 78 78 rest (by decide) (by decide)
      · show detectProtocol (72 :: 69 :: 65 :: 68 :: rest) = some Protocol.http
        exact detectProtocol_method 72 69 65 68 rest (by decide) (by decide)
      · show detectProtocol (80 :: 85 :: 84 :: 32 :: rest) = some Protocol.http
        exact detectProtocol_method 80 85 84 32 rest (by decide) (by decide)
    simp [handleConnection, hdet]
  · intro b rest hasSocks5 certOk h5 h16 hmethod
    have hdet : detectProtocol (b :: rest) = some Protocol.http := by
      rw [detectProtocol_cons, if_neg h5, if_neg hmethod, if_neg h16]
    simp [handleConnection, hdet]
  · intro hasSocks5 certOk
    rfl

/-- Witness for C4: the theorem applied at concrete byte sequences. -/
theorem detectProtocol_dispatch_characterization_checked :
    handleConnection true true (0x05 :: [1, 0]) = Dispatch.socks5Handler ∧
    handleConnection true true (0x16 :: [3, 1, 2]) = Dispatch.tlsHandler ∧
    handleConnection true true (asciiBytes "GET " ++ asciiBytes "/ HTTP/1.1") = Dispatch.httpLoop ∧
    handleConnection true true (0x58 :: [0x58, 0x58, 0x58]) = Dispatch.httpLoop :=
  ⟨detectProtocol_dispatch_characterization.1 [1, 0] true,
    detectProtocol_dispatch_characterization.2.2.1 [3, 1, 2] true,
    detectProtocol_dispatch_characterization.2.2.2.1 (asciiBytes "GET ")
      (asciiBytes "/ HTTP/1.1") true true (Or.inl rfl),
    detectProtocol_dispatch_characterization.2.2.2.2.1 0x58 [0x58, 0x58, 0x58] true true
      (by decide) (by decide) (by decide)⟩

/-- C4 counterexample: a connection starting with `XXXX` (bytes 0x58) —
matching neither 0x05, 0x16, nor any known method — is dispatched to the
HTTP loop, not closed as the claim requires. -/
theorem detectProtocol_unknown_bytes_default_http :
    handleConnection true true [0x58, 0x58, 0x58, 0x58] = Dispatch.httpLoop ∧
    handleConnection true true [0x58, 0x58, 0x58, 0x58] ≠ Dispatch.closed := by
  constructor <;> decide

theorem downloadMessage_contains_status (n : Nat) :
    goContains (downloadFailedMessage (statusErrorString n)) (natString n) = true := by
  unfold downloadFailedMessage statusErrorString
  rw [← String.append_assoc]
  exact goContains_append_right _ _

/-- C5: with a partially downloaded file (`startOffset > 0`) the worker's
upstream GET carries `Range: bytes=<startOffset>-`, carries a Cookie header
exactly when the task cookie is non-empty, and opens the file in append
mode on acceptance; any response status outside {200, 206} makes the worker
fail the record with a log message containing the status code, before any
byte is written. -/
theorem downloadTask_range_cookie_status :
    ∀ (cookie : String) (startOffset : Int) (respStatus : Nat),
      0 < startOffset →
      (("Range", "bytes=" ++ intString startOffset ++ "-") ∈
          (downloadAttempt cookie startOffset respStatus).1 ∧
        ((("Cookie", cookie) ∈ (downloadAttempt cookie startOffset respStatus).1) ↔
          cookie ≠ "") ∧
        (respStatus ≠ 200 → respStatus ≠ 206 →
          (downloadAttempt cookie startOffset respStatus).2 =
            DownloadOutcome.rejected (downloadFailedMessage (statusErrorString respStatus)) ∧
          goContains (downloadFailedMessage (statusErrorString respStatus))
            (natString respStatus) = true) ∧
        ((respStatus = 200 ∨ respStatus = 206) →
          (downloadAttempt cookie startOffset respStatus).2 =
            DownloadOutcome.accepted true)) := by
  intro cookie startOffset respStatus hoff
  have hhd : (downloadAttempt cookie startOffset respStatus).1 =
      downloadRequestHeaders cookie startOffset := rfl
  refine ⟨?_, ?_, ?_, ?_⟩
  · rw [hhd]
    unfold downloadRequestHeaders
    rw [if_pos hoff]
    exact List.mem_append_right _ (by simp)
  · rw [hhd]
    unfold downloadRequestHeaders
    rw [if_pos hoff]
    by_cases hc : cookie = ""
    · rw [if_neg (by simp [hc])]
      constructor
      · intro hmem
        simp at hmem
      · intro hne
        exact absurd hc hne
    · rw [if_pos hc]
      constructor
      · intro _
        exact hc
      · intro _
        exact List.mem_append_left _ (by simp)
  · intro h200 h206
    refine ⟨?_, downloadMessage_contains_status respStatus⟩
    show (if respStatus ≠ 200 ∧ respStatus ≠ 206 then _ else _) = _
    rw [if_pos ⟨h200, h206⟩]
  · intro hok
    show (if respStatus ≠ 200 ∧ respStatus ≠ 206 then _ else _) = _
    rw [if_neg]
    rintro ⟨ha, hb⟩
    rcases hok with h | h
    exacts [ha h, hb h]

/-- Witness for C5: the theorem at a resumed download (offset 512000) whose
upstream replies 404. -/
theorem downloadTask_range_cookie_status_checked :
    ("Range", "bytes=" ++ intString 512000 ++ "-") ∈
        (downloadAttempt "sid=1" 512000 404).1 ∧
      (("Cookie", "sid=1") ∈ (downloadAttempt "sid=1" 512000 404).1 ↔
        ("sid=1" : String) ≠ "") ∧
      (downloadAttempt "sid=1" 512000 404).2 =
        DownloadOutcome.rejected (downloadFailedMessage (statusErrorString 404)) ∧
      goContains (downloadFailedMessage (statusErrorString 404)) (natString 404) = true ∧
      (downloadAttempt "sid=1" 512000 200).2 = DownloadOutcome.accepted true := by
  obtain ⟨h1, h2, h3, _⟩ := downloadTask_range_cookie_status "sid=1" 512000 404 (by decide)
  obtain ⟨hr, hg⟩ := h3 (by decide) (by decide)
  obtain ⟨_, _, _, h4⟩ := downloadTask_range_cookie_status "sid=1" 512000 200 (by decide)
  exact ⟨h1, h2, hr, hg, h4 (Or.inl rfl)⟩

/-- C6: over every sequence of scheduler transitions, the task's fan-out
channel is closed at most once (never a double close), and it is closed —
with exactly one close — precisely when the task status is terminal
(`complete` or `failed`). -/
theorem taskDataChan_closed_exactly_once :
    ∀ evs : List TaskEvent,
      (taskRun evs).chan.closeCount ≤ 1 ∧
        (((taskRun evs).status = "complete" ∨ (taskRun evs).status = "failed") ↔
          (taskRun evs).chan.closeCount = 1) := by
  intro evs
  obtain ⟨h1, _, h3⟩ := taskRun_inv evs
  exact ⟨h1, h3⟩

/-- Witness for C6: the theorem applied to a worker run that fails after
starting (and then receives a duplicate close request via a second
terminal transition, which the once-latch ignores). -/
theorem taskDataChan_closed_exactly_once_checked :
    (taskRun [TaskEvent.startWork, TaskEvent.fail, TaskEvent.fail]).chan.closeCount ≤ 1 ∧
      (((taskRun [TaskEvent.startWork, TaskEvent.fail, TaskEvent.fail]).status = "complete" ∨
          (taskRun [TaskEvent.startWork, TaskEvent.fail, TaskEvent.fail]).status = "failed") ↔
        (taskRun [TaskEvent.startWork, TaskEvent.fail, TaskEvent.fail]).chan.closeCount = 1) :=
  taskDataChan_closed_exactly_once [TaskEvent.startWork, TaskEvent.fail, TaskEvent.fail]

/-- C7 (amended): for a CONNECT whose target host is not intercepted, when
an upstream proxy is configured (and parsing, dialing and hijacking
succeed) the proxy relays: it dials the upstream proxy host, writes the
CONNECT request for the target to it, answers the client with
`200 Connection Established`, and shuttles bytes both ways; when NO
upstream proxy is configured the proxy — contrary to the claim — does not
dial the target: it replies `502 No upstream proxy configured`. -/
theorem forwardConnect_upstream_relay :
    (∀ (rules : List CDNRule) (upstream proxyHost dialErr rHost : String),
        shouldIntercept rules rHost = false →
        upstream ≠ "" →
        handleHTTPS rules upstream (some proxyHost) true dialErr true none rHost =
          HTTPSAction.forwarded (ConnectOutcome.relayTunnel proxyHost
            ("CONNECT " ++ connectTargetHost rHost ++ " HTTP/1.1\r\nHost: " ++
              connectTargetHost rHost ++ "\r\n\r\n")
            "HTTP/1.1 200 Connection Established\r\n\r\n")) ∧
    (∀ (rules : List CDNRule) (parsed : Option String) (dialOk : Bool) (dialErr : String)
        (hijackSupported : Bool) (hijackErr : Option String) (rHost : String),
        shouldIntercept rules rHost = false →
        handleHTTPS rules "" parsed dialOk dialErr hijackSupported hijackErr rHost =
          HTTPSAction.forwarded
            (ConnectOutcome.httpError 502 "No upstream proxy configured")) := by
  constructor
  · intro rules upstream proxyHost dialErr rHost hni hup
    unfold handleHTTPS
    rw [hni]
    show HTTPSAction.forwarded (forwardConnect upstream (some proxyHost) true dialErr
      true none (connectTargetHost rHost)) = _
    unfold forwardConnect
    rw [if_neg hup]
    rfl
  · intro rules parsed dialOk dialErr hs he rHost hni
    unfold handleHTTPS
    rw [hni]
    show HTTPSAction.forwarded (forwardConnect "" parsed dialOk dialErr hs he
      (connectTargetHost rHost)) = _
    unfold forwardConnect
    rw [if_pos rfl]

/-- Witness for C7: the theorem applied to a concrete non-intercepted
CONNECT, with and without an upstream proxy. -/
theorem forwardConnect_upstream_relay_checked :
    handleHTTPS [⟨"youtube.com", ".*", "full_url"⟩] "http://up.example:3128" (some "up.example:3128")
        true "" true none "origin.example" =
      HTTPSAction.forwarded (ConnectOutcome.relayTunnel "up.example:3128"
        ("CONNECT " ++ connectTargetHost "origin.example" ++ " HTTP/1.1\r\nHost: " ++
          connectTargetHost "origin.example" ++ "\r\n\r\n")
        "HTTP/1.1 200 Connection Established\r\n\r\n") ∧
    handleHTTPS [⟨"youtube.com", ".*", "full_url"⟩] "" none true "" true none "origin.example" =
      HTTPSAction.forwarded (ConnectOutcome.httpError 502 "No upstream proxy configured") :=
  ⟨forwardConnect_upstream_relay.1 [⟨"youtube.com", ".*", "full_url"⟩] "http://up.example:3128"
      "up.example:3128" "" "origin.example" (by decide) (by decide),
    forwardConnect_upstream_relay.2 [⟨"youtube.com", ".*", "full_url"⟩] none true "" true none
      "origin.example" (by decide)⟩

/-- C7 counterexample: with no upstream proxy configured, the code rejects
the CONNECT with 502 instead of dialing the target directly; the client
never receives `200 Connection Established`. -/
theorem forwardConnect_without_upstream_502 :
    forwardConnect "" none true "" true none "origin.example:443" =
      ConnectOutcome.httpError 502 "No upstream proxy configured" := by
  decide

theorem stringDataExt (a b : String) (h : a.data = b.data) : a = b := by
  cases a
  cases b
  exact congrArg String.mk h

theorem goContains_append_left (b c : String) : goContains (b ++ c) b = true := by
  unfold goContains
  rw [List.any_eq_true]
  refine ⟨b.data ++ c.data, ?_, ?_⟩
  · rw [String.data_append, List.mem_tails]
  · exact List.isPrefixOf_iff_prefix.mpr ⟨c.data, rfl⟩

theorem goContains_mid (a b c : String) : goContains (a ++ (b ++ c)) b = true := by
  unfold goContains
  rw [List.any_eq_true]
  refine ⟨b.data ++ c.data, ?_, ?_⟩
  · rw [String.data_append, String.data_append, List.mem_tails]
    exact ⟨a.data, rfl⟩
  · exact List.isPrefixOf_iff_prefix.mpr ⟨c.data, rfl⟩

theorem append_ne_empty_left (a b : String) (ha : a ≠ "") : a ++ b ≠ "" := by
  intro h
  apply ha
  have hd := congrArg String.data h
  rw [String.data_append] at hd
  have : a.data = [] := by
    rcases List.append_eq_nil.mp hd with ⟨h1, _⟩
    exact h1
  exact stringDataExt a "" this

theorem matchLiteral_headOpt_mismatch (fs input : List Char) (f c : Char)
    (hfs : fs.head? = some f) (hin : input.head? = some c)
    (hf : f ≠ ' ') (hc : c ≠ f) : matchLiteral fs input = none := by
  rcases fs with _ | ⟨f0, fs0⟩
  · simp at hfs
  · rcases input with _ | ⟨c0, in0⟩
    · simp at hin
    · simp only [List.head?_cons, Option.some.injEq] at hfs hin
      subst hfs
      subst hin
      exact matchLiteral_head_mismatch _ _ _ _ hf hc

theorem natString_data (n : Nat) : (natString n).data = natChars n := rfl

theorem goSscanfInt_format_digits (fmt lit : String) (n : Nat)
    (hws : wellSpaced fmt.data = true)
    (hlit : lit.data = fmt.data ++ [' ']) :
    goSscanfInt fmt (lit ++ natString n) = some (n : Int) := by
  unfold goSscanfInt
  have hdata : (lit ++ natString n).data = fmt.data ++ (' ' :: natChars n) := by
    rw [String.data_append, hlit, natString_data, List.append_assoc]
    rfl
  rw [hdata, matchLiteral_self_append _ _ hws]
  exact parseGoInt_space_digits n

theorem goSscanfInt_full_mismatch_short (n : Nat) :
    goSscanfInt "Download failed: unexpected status code:"
      ("unexpected status code: " ++ natString n) = none := by
  unfold goSscanfInt
  have hin : ("unexpected status code: " ++ natString n).data.head? = some 'u' := by
    rw [String.data_append]
    have h1 : ("unexpected status code: ").data =
        'u' :: ("nexpected status code: ").data := by decide
    rw [h1, List.cons_append]
    rfl
  rw [matchLiteral_headOpt_mismatch _ _ 'D' 'u' (by decide) hin (by decide) (by decide)]
  rfl

theorem downloadErrorReply_full_format (n : Nat) :
    downloadErrorReply ("Download failed: unexpected status code: " ++ natString n) =
      ((n : Int), "unexpected status code: " ++ natString n) := by
  have hsplit : ("Download failed: unexpected status code: " ++ natString n) =
      "Download failed: " ++ (("unexpected status code:" ++ (" " ++ natString n))) := by
    apply stringDataExt
    simp only [String.data_append, natString_data, ← List.append_assoc]
    congr 1
  have hsplit2 : ("Download failed: unexpected status code: " ++ natString n) =
      "Download failed: " ++ ("unexpected status code: " ++ natString n) := by
    apply stringDataExt
    simp only [String.data_append, natString_data, ← List.append_assoc]
    congr 1
  have hne := append_ne_empty_left "Download failed: unexpected status code: "
    (natString n) (by decide)
  have hcont : goContains ("Download failed: unexpected status code: " ++ natString n)
      "unexpected status code:" = true := by
    rw [hsplit]
    exact goContains_mid _ _ _
  have hscan := goSscanfInt_format_digits "Download failed: unexpected status code:"
    "Download failed: unexpected status code: " n (by decide) (by decide)
  have hcut : cutDownloadFailed ("Download failed: unexpected status code: " ++ natString n) =
      "unexpected status code: " ++ natString n := by
    rw [hsplit2]
    exact cutDownloadFailed_append _
  unfold downloadErrorReply
  simp [hne, hcont, hscan, hcut]

theorem downloadErrorReply_short_format (n : Nat) :
    downloadErrorReply ("unexpected status code: " ++ natString n) =
      ((n : Int), "unexpected status code: " ++ natString n) := by
  have hsplit : ("unexpected status code: " ++ natString n) =
      "unexpected status code:" ++ (" " ++ natString n) := by
    apply stringDataExt
    simp only [String.data_append, natString_data, ← List.append_assoc]
    congr 1
  have hhead : ("unexpected status code: " ++ natString n).data = 'u' ::
      (("nexpected status code: ").data ++ natChars n) := by
    rw [String.data_append, natString_data]
    have h1 : ("unexpected status code: ").data =
        'u' :: ("nexpected status code: ").data := by decide
    rw [h1, List.cons_append]
  have hne := append_ne_empty_left "unexpected status code: " (natString n) (by decide)
  have hcont : goContains ("unexpected status code: " ++ natString n)
      "unexpected status code:" = true := by
    rw [hsplit]
    exact goContains_append_left _ _
  have hscan1 := goSscanfInt_full_mismatch_short n
  have hscan2 := goSscanfInt_format_digits "unexpected status code:"
    "unexpected status code: " n (by decide) (by decide)
  have hcut : cutDownloadFailed ("unexpected status code: " ++ natString n) =
      "unexpected status code: " ++ natString n :=
    cutDownloadFailed_head_ne _ 'u' _ hhead (by decide)
  unfold downloadErrorReply
  simp [hne, hcont, hscan1, hscan2, hcut]

theorem downloadErrorReply_no_code (msg : String) (hne : msg ≠ "")
    (hnc : goContains msg "unexpected status code:" = false) :
    downloadErrorReply msg = (502, cutDownloadFailed msg) := by
  unfold downloadErrorReply
  simp [hne, hnc]

theorem downloadErrorReply_empty : downloadErrorReply "" = (502, "Download failed") := by
  decide

/-- C9 (amended): for a failed record, `writeDownloadError` reads the most
recent error log entry for the fileHash (greatest `createdAt` among
matching entries); it replies with status NNN exactly when that entry's
message has the form `Download failed: unexpected status code: NNN` or
starts with `unexpected status code: NNN` (these are the two Sscanf
patterns the code tries — a message merely CONTAINING the phrase elsewhere
falls back to 502, see the counterexample); any other message, and the
no-entry case, reply 502; the body is the message with the
`Download failed: ` marker stripped (or `Download failed` when empty). -/
theorem writeDownloadError_status_extraction :
    (∀ (logs : List LogEntry) (fh : String) (e : LogEntry) (n : Nat),
        latestErrorLog logs fh = some e →
        e.message = "Download failed: unexpected status code: " ++ natString n →
        writeDownloadError logs fh = ((n : Int), "unexpected status code: " ++ natString n)) ∧
    (∀ (logs : List LogEntry) (fh : String) (e : LogEntry) (n : Nat),
        latestErrorLog logs fh = some e →
        e.message = "unexpected status code: " ++ natString n →
        writeDownloadError logs fh = ((n : Int), "unexpected status code: " ++ natString n)) ∧
    (∀ (logs : List LogEntry) (fh : String) (e : LogEntry),
        latestErrorLog logs fh = some e →
        e.message ≠ "" →
        goContains e.message "unexpected status code:" = false →
        writeDownloadError logs fh = (502, cutDownloadFailed e.message)) ∧
    (∀ (logs : List LogEntry) (fh : String),
        latestErrorLog logs fh = none →
        writeDownloadError logs fh = (502, "Download failed")) ∧
    (∀ (logs : List LogEntry) (fh : String) (e : LogEntry),
        latestErrorLog logs fh = some e →
        e ∈ logs ∧ e.level = "error" ∧ e.fileHash = fh ∧
          ∀ f ∈ logs, f.level = "error" → f.fileHash = fh →
            f.createdAt ≤ e.createdAt) := by
  refine ⟨?_, ?_, ?_, ?_, latestErrorLog_spec⟩
  · intro logs fh e n hlatest hmsg
    unfold writeDownloadError
    rw [hlatest]
    show downloadErrorReply e.message = _
    rw [hmsg]
    exact downloadErrorReply_full_format n
  · intro logs fh e n hlatest hmsg
    unfold writeDownloadError
    rw [hlatest]
    show downloadErrorReply e.message = _
    rw [hmsg]
    exact downloadErrorReply_short_format n
  · intro logs fh e hlatest hne hnc
    unfold writeDownloadError
    rw [hlatest]
    show downloadErrorReply e.message = _
    exact downloadErrorReply_no_code e.message hne hnc
  · intro logs fh hlatest
    unfold writeDownloadError
    rw [hlatest]
    show downloadErrorReply "" = _
    exact downloadErrorReply_empty

/-- Witness for C9: the theorem applied to a one-entry log whose message is
the exact form written by `handleDownloadError` for upstream status 404. -/
theorem writeDownloadError_status_extraction_checked :
    writeDownloadError [statusEntry404] "h9" =
      ((404 : Int), "unexpected status code: " ++ natString 404) :=
  writeDownloadError_status_extraction.1 [statusEntry404] "h9" statusEntry404 404
    (by simp [latestErrorLog, pickLatestStep, statusEntry404]) rfl

/-- C9 counterexample: a log message that CONTAINS
`unexpected status code: 404` mid-string matches neither Sscanf pattern,
so the code replies 502 — not 404 as the claim requires. -/
theorem writeDownloadError_midstring_not_extracted :
    writeDownloadError [midStringEntry] "h1" = (502, "oops: unexpected status code: 404") ∧
    goContains midStringEntry.message "unexpected status code:" = true ∧
    (502 : Int) ≠ 404 := by
  refine ⟨by decide, by decide, by decide⟩

end Mitmcdn
